import Mathlib

set_option maxRecDepth 8000

/-!
Verification of the orchestration layer of the `price-crawl` repository:
the per-source crawl-cycle retry/fallback state machine, the bounded
scheduler, the bounded-size record store, and the record-id generator.

Each definition is a shallow embedding of a specific function of the
repository; its doc comment names the source file (and, for the files
whose evolutionary revisions coexist in the repository, the revision)
it is translated from.  JavaScript-specific semantics that the embedded
code relies on (falsy values, `Array.prototype.sort` stability, the
`NaN` comparator result) are modelled explicitly and noted where they

appear.
-/

namespace PriceCrawl

/-! ## Tunable constants (defaults from the source) -/

/-- `MAX_RETRIES` — `crawler-factory.ts`: `parseInt(process.env.CRAWLER_MAX_RETRIES || '3', 10)`,
default 3. -/
def MAX_RETRIES : Nat := 3

/-- `RETRY_DELAY_BASE_MS` — default 5000. -/
def RETRY_DELAY_BASE_MS : Nat := 5000

/-- `NO_DATA_BACKOFF_MS` — default 300000. -/
def NO_DATA_BACKOFF_MS : Nat := 300000

/-- `DEFAULT_POLL_INTERVAL` — `crawler-factory.ts`, 30000 ms. -/
def DEFAULT_POLL_INTERVAL : Nat := 30000

/-- `MAX_RECORDS` — data store capacity, 99. -/
def MAX_RECORDS : Nat := 99

/-- `FAILURE_THRESHOLD` — adaptive revision of `createCrawler`:
"Switch after 2 failed runs in a row". -/
def FAILURE_THRESHOLD : Nat := 2

/-- `MAX_CONCURRENT_CRAWLERS` — `crawler-manager.ts`, 2. -/
def MAX_CONCURRENT_CRAWLERS : Nat := 2

/-- `config.pollIntervalMs || DEFAULT_POLL_INTERVAL`: JavaScript `||` takes the
default when the configured value is falsy (`0` or absent, here encoded as `0`). -/
def pollEff (pollIntervalMs : Nat) : Nat :=
  if pollIntervalMs = 0 then DEFAULT_POLL_INTERVAL else pollIntervalMs

/-! ## String helpers shared by the id generator and the data store -/

/-- Character-level model of `String.prototype.replace(/\s+/g, '-')`: every
maximal run of whitespace becomes a single `'-'`.  The boolean argument
records whether the previous character was part of a whitespace run. -/
def collapseWsAux : Bool → List Char → List Char
  | _, [] => []
  | prevWs, c :: cs =>
    if c.isWhitespace then
      if prevWs then collapseWsAux true cs
      else '-' :: collapseWsAux true cs
    else c :: collapseWsAux false cs

/-- Model of `s.replace(/\s+/g, '-')`. -/
def collapseWs (s : String) : String :=
  ⟨collapseWsAux false s.data⟩

/-- Model of `s.toLowerCase()`, applied character by character. -/
def lowerStr (s : String) : String :=
  ⟨s.data.map Char.toLower⟩

/-- The identifier template `` `${name.replace(/\s+/g, '-').toLowerCase()}-${region}` ``
used both by `DataStore.push` (`data-store.ts`) and as the fallback branch of
`generateRecordId` (`id-generator.ts`). -/
def storeId (name region : String) : String :=
  lowerStr (collapseWs name) ++ "-" ++ region

/-! ## `id-generator.ts` -/

/-- Character-level model of `href.split('/')`: JavaScript `split` on a
one-character separator, so `''.split('/') = ['']` and
`'/'.split('/') = ['', '']`. -/
def splitSlash : List Char → List (List Char)
  | [] => [[]]
  | c :: cs =>
    let r := splitSlash cs
    if c = '/' then [] :: r
    else
      match r with
      | [] => [[c]]
      | seg :: rest => (c :: seg) :: rest

/-- The slug computation of `generateRecordId`:
`href.split('/').filter(p => p.length > 0)` and then
`hrefParts[hrefParts.length - 1] || ''`; returns `none` when the href is
falsy (empty) or yields no nonempty segment (the `|| ''` default followed
by the falsy test `if (slug)`), i.e. exactly when the source takes the
name-region fallback branch. -/
def hrefSlug (href : String) : Option String :=
  if href = "" then none
  else
    let hrefParts := (splitSlash href.data).filter (fun p => 0 < p.length)
    match hrefParts.getLast? with
    | none => none
    | some slug => some ⟨slug⟩

/-- `generateRecordId` from `id-generator.ts`.  `md5hex8` models
`createHash('md5').update(href).digest('hex').substring(0, 8)`, the host
hash left abstract; the branch structure and string assembly follow the
source.  An absent or falsy href, or an href without a nonempty path
segment, falls back to the name-region id. -/
def generateRecordId (md5hex8 : String → String) (name region : String)
    (href : Option String) : String :=
  match href with
  | none => storeId name region
  | some h =>
    match hrefSlug h with
    | none => storeId name region
    | some slug => slug ++ "-" ++ region ++ "-" ++ md5hex8 h

/-! ## `data-store.ts` — the per-category record store

`DataStore.push` reads the category's record list, upserts each pushed item
(key: the computed id), then (1) stably sorts by descending parsed
`scrapedAt`, (2) truncates to `MAX_RECORDS` if over capacity, (3) stably
sorts by name.  The persistence (JSON file, write queue, metadata) is I/O
glue around this pure record-list transformation, which is what is
embedded here. -/

/-- Stored record (`DataRecord` in `data-store.ts`).  Besides the fields
used by `push` (`id`, `name`, `region`, `scrapedAt`), a representative
payload field (`last`, `high`) is kept so that whole-record replacement
is observable; the remaining optional scalar fields behave identically
(records are copied and replaced wholesale, never field-merged). -/
structure DataRecord where
  id : String
  name : String
  region : String
  category : String
  last : String
  high : Option String
  scrapedAt : Option String
deriving DecidableEq

/-- An element of the `push` argument: `Omit<DataRecord, 'id'>`. -/
structure PushItem where
  name : String
  region : String
  category : String
  last : String
  high : Option String
  scrapedAt : Option String
deriving DecidableEq

/-- The record built inside the `push` loop:
`const id = ...; const record: DataRecord = { id, ...item };`. -/
def mkPushRecord (it : PushItem) : DataRecord :=
  { id := storeId it.name it.region, name := it.name, region := it.region
    category := it.category, last := it.last, high := it.high
    scrapedAt := it.scrapedAt }

/-- The body of the `push` upsert loop: `findIndex` on the id, replace in
place at the first match, otherwise append at the end. -/
def upsertOne : List DataRecord → DataRecord → List DataRecord
  | [], r => [r]
  | x :: xs, r => if x.id = r.id then r :: xs else x :: upsertOne xs r

/-- `for (const item of items) { ... }` — upsert every pushed item in order. -/
def upsertAll (recs : List DataRecord) (items : List PushItem) : List DataRecord :=
  items.foldl (fun rs it => upsertOne rs (mkPushRecord it)) recs

/-- The timestamp read in the recency comparator:
`a.scrapedAt ? new Date(a.scrapedAt).getTime() : 0`.  A missing (or empty,
hence falsy) `scrapedAt` gives `0`; a present string is parsed by the host
`Date` parser `dt`, where `none` models an unparseable string (`NaN`). -/
def jsGetTime (dt : String → Option Int) : Option String → Option Int
  | none => some 0
  | some s => if s = "" then some 0 else dt s

/-- The recency comparator `(a, b) => dateB - dateA` as a keep-order test:
`true` iff the comparator result is `≤ 0` — or `NaN` (either date
unparseable), which `Array.prototype.sort` treats like `0`, keeping the
relative order of the two elements. -/
def keepRecency (dt : String → Option Int) (a b : DataRecord) : Bool :=
  match jsGetTime dt a.scrapedAt, jsGetTime dt b.scrapedAt with
  | some ta, some tb => decide (tb ≤ ta)
  | _, _ => true

/-- Lexicographic order on code points, the model of a non-positive
`localeCompare` result. -/
def lexLe : List Char → List Char → Bool
  | [], _ => true
  | _ :: _, [] => false
  | a :: as, b :: bs =>
    if a.toNat < b.toNat then true
    else if b.toNat < a.toNat then false
    else lexLe as bs

/-- The final display comparator `(a, b) => (a.name || '').localeCompare(b.name || '')`
as a keep-order test, modelling `localeCompare` as code-point order. -/
def keepName (a b : DataRecord) : Bool :=
  lexLe a.name.data b.name.data

/-- Insert `x` (an earlier array element) into the already-sorted list of
later elements: `x` goes before the first element `y` it may precede
(`keep x y`), in particular before elements the comparator calls equal —
which is exactly the placement a stable sort gives. -/
def jsInsert {α : Type} (keep : α → α → Bool) (x : α) : List α → List α
  | [] => [x]
  | y :: ys => if keep x y then x :: y :: ys else y :: jsInsert keep x ys

/-- Model of `Array.prototype.sort(comparefn)`: ECMAScript requires a
stable sort whose result is consistent with the comparator; stable
insertion sort realises that specification.  (For an inconsistent
comparator — possible here only through `NaN` timestamps — the standard
leaves the order implementation-defined; this model, like the engines'
stable sorts, keeps elements that compare "equal" in their original
relative order.) -/
def jsSortStable {α : Type} (keep : α → α → Bool) : List α → List α
  | [] => []
  | x :: xs => jsInsert keep x (jsSortStable keep xs)

/-- The rotation phase of `DataStore.push`, applied to the upserted
collection: sort by recency (newest first), truncate to `MAX_RECORDS`
when over capacity (`slice(0, MAX_RECORDS)`), then sort alphabetically by
name for storage. -/
def capRecords (dt : String → Option Int) (merged : List DataRecord) : List DataRecord :=
  let sorted := jsSortStable (keepRecency dt) merged
  let capped := if MAX_RECORDS < sorted.length then sorted.take MAX_RECORDS else sorted
  jsSortStable keepName capped

/-- The record-list transformation performed by one `DataStore.push` call:
upsert all items, then rotate (sort by recency, cap, sort by name). -/
def pushRecords (dt : String → Option Int) (recs : List DataRecord)
    (items : List PushItem) : List DataRecord :=
  capRecords dt (upsertAll recs items)

/-- The capture timestamp as the specification reads it: missing **or
unparseable** `scrapedAt` counts as epoch `0`. -/
def claimTime (dt : String → Option Int) (r : DataRecord) : Int :=
  (jsGetTime dt r.scrapedAt).getD 0

/-- Claim C7 as a property of the store: whenever a push evicts a record,
every evicted record is no newer (in the specification's reading of the
timestamp, `claimTime`) than every kept record. -/
def evictsOldestFirst (dt : String → Option Int) : Prop :=
  ∀ recs items e, e ∈ upsertAll recs items → e ∉ pushRecords dt recs items →
    ∀ k ∈ pushRecords dt recs items, claimTime dt e ≤ claimTime dt k

/-- Decimal-digit parser used by the concrete stand-in `Date` parser. -/
def decimalValAux : List Char → Option Nat → Option Nat
  | [], acc => acc
  | c :: cs, acc =>
    if c.isDigit then decimalValAux cs (some ((acc.getD 0) * 10 + (c.toNat - 48)))
    else none

/-- A concrete stand-in for the host `Date` parser, used on closed
examples only: decimal strings parse to their value in ms, anything else
(such as `"x"`) is unparseable (`NaN`). -/
def dtEx (s : String) : Option Int :=
  (decimalValAux s.data none).map Int.ofNat

/-- Example record whose `scrapedAt` is present but unparseable. -/
def recU : DataRecord :=
  { id := "u-r", name := "u", region := "r", category := "c"
    last := "", high := none, scrapedAt := some "x" }

/-- Example records with valid, strictly decreasing timestamps 200, 199, …. -/
def vRec (i : Nat) : DataRecord :=
  { id := "n" ++ toString i ++ "-r", name := "n" ++ toString i, region := "r"
    category := "c", last := "", high := none
    scrapedAt := some (toString (200 - i)) }

/-- A full category store (99 records): the unparseable-timestamp record
first, then 98 records with valid decreasing timestamps. -/
def c7Recs : List DataRecord :=
  recU :: (List.range 98).map vRec

/-- A pushed item with the oldest valid timestamp (5 ms). -/
def c7Item : PushItem :=
  { name := "zz", region := "r", category := "c", last := "", high := none
    scrapedAt := some "5" }

/-- A full category store of 99 records with valid timestamps only. -/
def c7RecsW : List DataRecord :=
  (List.range 99).map vRec

/-! ## `crawler-factory.ts`, consolidated revision (the `storedCountThisRun`
revision of `createCrawler` in the repository): `runWithRetry` and the
sleep structure of `start`.

The environment of one run is modelled by the results the two extraction
backends would deliver: `atts i` is what the `i`-th Playwright attempt
(`crawler.run` raced against its timeout) does, and `fb` is what the single
`runBrowserlessScrape` fallback call would return (`none`: it throws;
`some n`: it resolves with `recordCount = n`).  Executions are those with
no stop signal delivered. -/

/-- Result of one Playwright attempt: whether `crawler.run` (or its timeout
race) threw, and the value of `storedCountThisRun` the request handler left
behind for this attempt. -/
structure Att where
  threw : Bool
  stored : Nat
deriving DecidableEq

/-- How `runWithRetry` ends. -/
inductive RunOutcomeA
  /-- The Playwright cycle stored `n > 0` records and `runWithRetry` returned. -/
  | primarySuccess (n : Nat)
  /-- The Browserless fallback returned `recordCount = n > 0`. -/
  | fallbackSuccess (n : Nat)
  /-- Both backends yielded zero records; the `NO_DATA_BACKOFF_MS` sleep ran. -/
  | noData
  /-- `runWithRetry` threw (re-raised the Playwright error). -/
  | threw
deriving DecidableEq

/-- What one `runWithRetry` invocation does: its outcome, the exponential
backoff sleeps performed between attempts, and the post-run sleep performed
inside `runWithRetry` after the final attempt (the no-data backoff, or 0). -/
structure RunResA where
  outcome : RunOutcomeA
  backoffs : List Nat
  postSleep : Nat
deriving DecidableEq

/-- The fallback section of `runWithRetry`'s catch block: invoke
`runBrowserlessScrape` once.  A `recordCount > 0` is success for the run;
zero records from both backends sleeps `NO_DATA_BACKOFF_MS` and returns
normally; a fallback throw re-raises the original Playwright error. -/
def fallbackResA (fb : Option Nat) : RunResA :=
  match fb with
  | none => { outcome := .threw, backoffs := [], postSleep := 0 }
  | some n =>
    if 0 < n then { outcome := .fallbackSuccess n, backoffs := [], postSleep := 0 }
    else { outcome := .noData, backoffs := [], postSleep := NO_DATA_BACKOFF_MS }

/-- The recursion of `runWithRetry(retryCount)`.  `fuel` bounds the
recursion depth for Lean's termination checker; the recursion fires only
while `retryCount < MAX_RETRIES`, so `MAX_RETRIES + 1 - retryCount` steps
always suffice and the fuel-exhausted branch (which returns `threw`) is
unreachable from `runWithRetryA`.

One step mirrors the source: run the attempt; if it did not throw and
`storedCountThisRun > 0`, return success.  Otherwise (the attempt threw,
or the explicit `storedCountThisRun === 0` throw fired) enter the catch
block: if `retryCount < MAX_RETRIES && storedCountThisRun === 0`, sleep
`RETRY_DELAY_BASE_MS * 2^retryCount` and recurse; otherwise run the
fallback section `fallbackResA`. -/
def runRetryAuxA (atts : Nat → Att) (fb : Option Nat) : Nat → Nat → RunResA
  | fuel, rc =>
    let a := atts rc
    if a.threw = false ∧ 0 < a.stored then
      { outcome := .primarySuccess a.stored, backoffs := [], postSleep := 0 }
    else if rc < MAX_RETRIES ∧ a.stored = 0 then
      match fuel with
      | fuel' + 1 =>
        let r := runRetryAuxA atts fb fuel' (rc + 1)
        { r with backoffs := RETRY_DELAY_BASE_MS * 2 ^ rc :: r.backoffs }
      | 0 => { outcome := .threw, backoffs := [], postSleep := 0 }
    else
      fallbackResA fb

/-- `runWithRetry(retryCount)` of the consolidated `createCrawler` revision. -/
def runWithRetryA (atts : Nat → Att) (fb : Option Nat) (rc : Nat) : RunResA :=
  runRetryAuxA atts fb (MAX_RETRIES + 1 - rc) rc

/-- Total sleep between the end of the last extraction attempt of a run and
the start of the next run, in a stop-free execution of the `start` loop:
the post-run sleep `runWithRetry` itself performs (the no-data backoff when
both backends yielded zero records) plus the unconditional poll-interval
sleep at the bottom of the `while (isRunning)` loop — `start` performs the
latter whether `runWithRetry` returned or threw. -/
def interRunGapA (atts : Nat → Att) (fb : Option Nat) (pollIntervalMs : Nat) : Nat :=
  (runWithRetryA atts fb 0).postSleep + pollEff pollIntervalMs

/-! ## `src/lib/crawler-factory.ts` — sleep/stop timeline of one cycle

In this file's `runWithRetry`, the retry backoff sleep is
`await new Promise(resolve => setTimeout(resolve, delay))` — it registers
no abort listener and `runWithRetry` never consults `isRunning` or the
abort signal, so neither the sleep nor the decision to start the next
attempt reacts to `stop()`.  The inter-cycle poll sleep in `start`
registers an `'abort'` listener that clears the timer and resolves; a
signal aborted *before* the listener is added never fires it, so only a
stop delivered strictly inside the poll-sleep window shortens it.  The
timeline below records, for a run whose attempt outcomes and durations
are given, the start time of every attempt (retry attempts and the one
fallback invocation) and every sleep, all in ms from the start of the
cycle. -/

/-- Environment of one `crawler-factory.ts` cycle: per-attempt wall-clock
duration and whether the attempt (the `crawler.run`/timeout race) threw;
duration of the Browserless fallback call; configured poll interval. -/
structure C3In where
  attDur : Nat → Nat
  attThrew : Nat → Bool
  fbDur : Nat
  pollIntervalMs : Nat

/-- One sleep of the run phase: its start, its scheduled duration, and
whether the code attached a stop-signal abort handler to it. -/
structure SleepEv where
  start : Nat
  dur : Nat
  cancellable : Bool
deriving DecidableEq

/-- Timeline of one `runWithRetry` call: attempt start times (the fallback
invocation included), the backoff sleeps, and the finish time. -/
structure RunTL where
  attStarts : List Nat
  sleeps : List SleepEv
  endT : Nat
deriving DecidableEq

/-- Build the run timeline from retryCount `rc` at time `t`.  On a
non-throwing attempt the run ends (this revision has no zero-record
check); on a throw with retries left, the full backoff sleep (never
cancellable in this revision) precedes the next attempt; once retries are
exhausted the fallback runs. -/
def runTLAux (inp : C3In) : Nat → Nat → Nat → RunTL
  | fuel, rc, t =>
    let d := inp.attDur rc
    if inp.attThrew rc = false then
      { attStarts := [t], sleeps := [], endT := t + d }
    else if rc < MAX_RETRIES then
      match fuel with
      | fuel' + 1 =>
        let delay := RETRY_DELAY_BASE_MS * 2 ^ rc
        let rest := runTLAux inp fuel' (rc + 1) (t + d + delay)
        { attStarts := t :: rest.attStarts
          sleeps := { start := t + d, dur := delay, cancellable := false } :: rest.sleeps
          endT := rest.endT }
      | 0 => { attStarts := [t], sleeps := [], endT := t + d }
    else
      { attStarts := [t, t + d], sleeps := [], endT := t + d + inp.fbDur }

/-- Timeline of the `runWithRetry()` call that a cycle begins with. -/
def runTL (inp : C3In) : RunTL :=
  runTLAux inp (MAX_RETRIES + 1) 0 0

/-- One full cycle with a stop signal delivered at time `stop`: the run
timeline, then the poll sleep.  `pollActualEnd` is when the poll sleep
actually resolves: at `stop` if the signal arrives strictly inside the
sleep's window (the abort listener fires), otherwise after the full
scheduled duration (a listener added to an already-aborted signal never
fires).  The next run starts only if `isRunning` is still true at that
moment, i.e. only if the stop arrives strictly later. -/
structure CycleTL where
  attStarts : List Nat
  sleeps : List SleepEv
  pollStart : Nat
  pollDur : Nat
  pollActualEnd : Nat
  nextRunStarts : Bool
deriving DecidableEq

/-- Assemble the cycle timeline for stop time `stop`. -/
def cycleTL (inp : C3In) (stop : Nat) : CycleTL :=
  let r := runTL inp
  let pd := pollEff inp.pollIntervalMs
  let pe := if r.endT ≤ stop ∧ stop < r.endT + pd then stop else r.endT + pd
  { attStarts := r.attStarts, sleeps := r.sleeps
    pollStart := r.endT, pollDur := pd, pollActualEnd := pe
    nextRunStarts := decide (pe < stop) }

/-- Claim C3 as a property of a cycle: every sleep (retry backoff or poll)
in progress when the stop signal arrives ends by the stop time, and no
retry or fallback attempt starts after the stop time. -/
def stopCancelsSleeps (inp : C3In) (stop : Nat) : Prop :=
  let c := cycleTL inp stop
  (∀ ev ∈ c.sleeps, ev.start ≤ stop → stop < ev.start + ev.dur → ev.start + ev.dur ≤ stop)
  ∧ (c.pollStart ≤ stop → stop < c.pollStart + c.pollDur → c.pollActualEnd ≤ stop)
  ∧ (∀ a ∈ c.attStarts, ¬ stop < a)

instance (inp : C3In) (stop : Nat) : Decidable (stopCancelsSleeps inp stop) := by
  unfold stopCancelsSleeps
  exact inferInstance

/-- Concrete cycle for the counterexample: every Playwright attempt takes
1000 ms and throws, the fallback takes 1000 ms, default poll interval. -/
def c3Demo : C3In :=
  { attDur := fun _ => 1000, attThrew := fun _ => true
    fbDur := 1000, pollIntervalMs := 30000 }

/-! ## Adaptive revision of `createCrawler` (part of the repository's
`crawler-factory` history): consecutive-failure tracking and the
adaptive preference switch in its `runWithRetry`. -/

/-- The adaptive per-source state: `consecutivePlaywrightFailures` and
`preferredMethod` (`true` = `'browserless'`).  Initial state: 0 failures,
Playwright preferred. -/
structure AdaptState where
  fails : Nat
  preferBrowserless : Bool
deriving DecidableEq

/-- Environment of one adaptive run: what the Playwright attempt would do,
and whether `executeBrowserless()` would return `true` (it returns `false`
both on zero records and on an internal error, which it catches). -/
structure AdaptIn where
  pw : Att
  bl : Bool
deriving DecidableEq

/-- Result of one adaptive `runWithRetry()` call: the updated state,
whether the run succeeded (returned rather than threw), and whether the
Playwright (primary) backend was invoked at all. -/
structure AdaptRes where
  state : AdaptState
  ok : Bool
  usedPrimary : Bool
deriving DecidableEq

/-- The Playwright attempt failed: it threw, or stored zero records
(`storedCountThisRun > 0` is the success test). -/
def pwFailed (inp : AdaptIn) : Prop :=
  inp.pw.threw = true ∨ inp.pw.stored = 0

instance (inp : AdaptIn) : Decidable (pwFailed inp) := by
  unfold pwFailed
  exact inferInstance

/-- One `runWithRetry()` of the adaptive revision.  If Browserless is
preferred, run it alone (success returns, failure throws) and leave the
adaptive state untouched.  Otherwise run Playwright: success resets the
failure counter; failure increments it, switches the preference once the
counter reaches `FAILURE_THRESHOLD`, then tries the Browserless fallback
for this run — whose success does *not* touch the failure counter. -/
def runAdapt (st : AdaptState) (inp : AdaptIn) : AdaptRes :=
  if st.preferBrowserless then
    { state := st, ok := inp.bl, usedPrimary := false }
  else
    if inp.pw.threw = false ∧ 0 < inp.pw.stored then
      { state := { st with fails := 0 }, ok := true, usedPrimary := true }
    else
      let f := st.fails + 1
      let pref := if FAILURE_THRESHOLD ≤ f then true else st.preferBrowserless
      { state := { fails := f, preferBrowserless := pref }
        ok := inp.bl, usedPrimary := true }

/-- A sequence of adaptive runs, threading the per-source state. -/
def runAdaptSeq (st : AdaptState) : List AdaptIn → List AdaptRes
  | [] => []
  | i :: is =>
    let r := runAdapt st i
    r :: runAdaptSeq r.state is

/-! ## `crawler-manager.ts` — bounded-startup scheduler

The manager throttles crawler *startup*: `processQueue` starts queued
crawlers while `activeCrawlers < MAX_CONCURRENT_CRAWLERS`; a crawler that
reports `sleeping` (or `error`) triggers `releaseSlot`, which decrements
the counter and runs `processQueue` again.  A started crawler's own loop,
however, keeps running: after its poll sleep it re-enters scraping
directly, without any interaction with the queue or the slot counter.
The system state below is the manager state plus each registered
crawler's current phase; `SysStep` contains the two phase transitions a
started crawler performs on its own (finishing a run — which fires the
`sleeping`/`error` status callback and hence `releaseSlot` — and waking
from its poll sleep). -/

/-- Observable phase of a registered crawler's loop. -/
inductive Phase
  | idle
  | scraping
  | sleeping
deriving DecidableEq

/-- Manager state (`jobQueue`, `activeCrawlers`, the `crawlers` map keys,
`isRunning`) plus each crawler's phase (the `states` map's status field). -/
structure SysState where
  isRunning : Bool
  jobQueue : List String
  activeCrawlers : Nat
  crawlers : List String
  phases : List (String × Phase)
deriving DecidableEq

/-- Update one crawler's phase. -/
def setPhase (ps : List (String × Phase)) (k : String) (p : Phase) :
    List (String × Phase) :=
  ps.map (fun e => if e.1 = k then (k, p) else e)

/-- Phase of crawler `k`, if registered. -/
def phaseOf (s : SysState) (k : String) : Option Phase :=
  (s.phases.find? (fun e => e.1 = k)).map (fun e => e.2)

/-- `this.activeCrawlers++` plus `crawler.start()` — the started loop's
first reported status is `scraping`. -/
def startCrawlerSlot (s : SysState) (k : String) : SysState :=
  { s with activeCrawlers := s.activeCrawlers + 1
           phases := setPhase s.phases k Phase.scraping }

/-- The `while` loop of `processQueue`: shift keys off the queue and start
them while a slot is free; keys missing from the crawler map are dropped
(the `if (crawler)` guard). -/
def pqGo : List String → SysState → SysState
  | [], s => { s with jobQueue := [] }
  | k :: rest, s =>
    if s.activeCrawlers < MAX_CONCURRENT_CRAWLERS then
      if s.crawlers.contains k then pqGo rest (startCrawlerSlot s k)
      else pqGo rest s
    else { s with jobQueue := k :: rest }

/-- `processQueue`: a no-op unless the manager is running. -/
def processQueue (s : SysState) : SysState :=
  if s.isRunning then pqGo s.jobQueue s else s

/-- `releaseSlot`: decrement the slot counter (never below zero) and
re-run `processQueue`. -/
def releaseSlot (s : SysState) : SysState :=
  if 0 < s.activeCrawlers then
    processQueue { s with activeCrawlers := s.activeCrawlers - 1 }
  else s

/-- The crawler keys `` `${category}-${region}` `` built from the loaded
sources. -/
def crawlKeys (sources : List (String × List String)) : List String :=
  (sources.map (fun cr => cr.2.map (fun r => cr.1 ++ "-" ++ r))).flatten

/-- `startAll()`: a no-op if already running; otherwise set `isRunning`,
rebuild the crawler map, the `idle` states and the job queue from the
sources, and run `processQueue`. -/
def startAllSys (sources : List (String × List String)) (s : SysState) : SysState :=
  if s.isRunning then s
  else
    let keys := crawlKeys sources
    processQueue
      { isRunning := true, jobQueue := keys
        activeCrawlers := s.activeCrawlers, crawlers := keys
        phases := keys.map (fun k => (k, Phase.idle)) }

/-- The fresh manager state built by the constructor. -/
def sysInit : SysState :=
  { isRunning := false, jobQueue := [], activeCrawlers := 0
    crawlers := [], phases := [] }

/-- Autonomous transitions of started crawler loops.

`finish`: a scraping crawler's `runWithRetry` returns (or throws): its
status callback reports `sleeping` (or `error`), and the manager reacts
with `releaseSlot` followed by `processQueue` — which may start queued
crawlers.

`wake`: a sleeping crawler's poll sleep elapses and its loop re-enters
`runWithRetry`, reporting `scraping` — with no manager involvement: no
queue re-entry, no slot acquisition. -/
inductive SysStep : SysState → SysState → Prop
  | finish (s : SysState) (k : String) (h : phaseOf s k = some Phase.scraping) :
      SysStep s (releaseSlot { s with phases := setPhase s.phases k Phase.sleeping })
  | wake (s : SysState) (k : String) (h : phaseOf s k = some Phase.sleeping) :
      SysStep s { s with phases := setPhase s.phases k Phase.scraping }

/-- Reachability by any number of autonomous steps. -/
def SysReaches : SysState → SysState → Prop :=
  Relation.ReflTransGen SysStep

/-- Number of crawlers currently in their active scraping phase. -/
def countScraping (s : SysState) : Nat :=
  s.phases.countP (fun e => decide (e.2 = Phase.scraping))

/-- Demo source configuration: one category, three regions. -/
def demoSources : List (String × List String) :=
  [("cat", ["r1", "r2", "r3"])]

/-! ## `createCrawler` instance state for `start()`'s re-entry guard -/

/-- Per-crawler loop state: the `isRunning` flag and whether the current
`abortController`'s signal is aborted. -/
structure CrState where
  isRunning : Bool
  aborted : Bool
deriving DecidableEq

/-- `start()`'s entry: if the loop is already running, log and return
without touching any state (`false`: no new loop entered); otherwise set
`isRunning`, install a fresh (non-aborted) `AbortController` and enter the
loop (`true`). -/
def crStart (c : CrState) : CrState × Bool :=
  if c.isRunning then (c, false)
  else ({ isRunning := true, aborted := false }, true)

/-! ## Concrete instances used by witnesses and counterexamples -/

/-- A one-record store for the upsert witness. -/
def c6Rec : DataRecord :=
  { id := "a-r", name := "a", region := "r", category := "c"
    last := "1", high := some "9", scrapedAt := some "1" }

/-- A pushed item whose computed id collides with `c6Rec`. -/
def c6Item : PushItem :=
  { name := "a", region := "r", category := "c", last := "2", high := none
    scrapedAt := some "2" }

/-- The manager state after `startAll` on the demo sources: two crawlers
admitted and scraping, the third queued. -/
def sA : SysState := startAllSys demoSources sysInit

/-- After the first crawler reports `sleeping`: its slot is released and
the queued third crawler is admitted. -/
def sB : SysState :=
  releaseSlot { sA with phases := setPhase sA.phases "cat-r1" Phase.sleeping }

/-- After the first crawler's poll sleep elapses: its loop re-enters
scraping on its own, while both slots are held by the others. -/
def sC : SysState :=
  { sB with phases := setPhase sB.phases "cat-r1" Phase.scraping }

/-! ## Helper lemmas: the stable sort -/

theorem length_jsInsert {α : Type} (keep : α → α → Bool) (x : α) (l : List α) :
    (jsInsert keep x l).length = l.length + 1 := by
  induction l with
  | nil => rfl
  | cons y ys ih =>
    simp only [jsInsert]
    split
    · simp
    · simp [ih]

theorem length_jsSortStable {α : Type} (keep : α → α → Bool) (l : List α) :
    (jsSortStable keep l).length = l.length := by
  induction l with
  | nil => rfl
  | cons x xs ih => simp [jsSortStable, length_jsInsert, ih]

theorem mem_jsInsert {α : Type} (keep : α → α → Bool) (x a : α) (l : List α) :
    a ∈ jsInsert keep x l ↔ a = x ∨ a ∈ l := by
  induction l with
  | nil => simp [jsInsert]
  | cons y ys ih =>
    simp only [jsInsert]
    split
    · simp [List.mem_cons]
    · simp only [List.mem_cons, ih]
      tauto

theorem mem_jsSortStable {α : Type} (keep : α → α → Bool) (a : α) (l : List α) :
    a ∈ jsSortStable keep l ↔ a ∈ l := by
  induction l with
  | nil => simp [jsSortStable]
  | cons x xs ih =>
    simp only [jsSortStable, mem_jsInsert, ih, List.mem_cons]

theorem jsInsert_congrOn {α : Type} (keep keep2 : α → α → Bool) (x : α) (l : List α)
    (h : ∀ y ∈ l, keep x y = keep2 x y) :
    jsInsert keep x l = jsInsert keep2 x l := by
  induction l with
  | nil => rfl
  | cons y ys ih =>
    simp only [jsInsert]
    rw [h y (by simp)]
    split
    · rfl
    · rw [ih (fun z hz => h z (by simp [hz]))]

theorem jsSortStable_congrOn {α : Type} (keep keep2 : α → α → Bool) (l : List α)
    (h : ∀ a ∈ l, ∀ b ∈ l, keep a b = keep2 a b) :
    jsSortStable keep l = jsSortStable keep2 l := by
  induction l with
  | nil => rfl
  | cons x xs ih =>
    simp only [jsSortStable]
    rw [ih (fun a ha b hb => h a (by simp [ha]) b (by simp [hb]))]
    exact jsInsert_congrOn keep keep2 x _ (fun y hy => by
      have hy2 : y ∈ xs := (mem_jsSortStable keep2 y xs).mp hy
      exact h x (by simp) y (by simp [hy2]))

theorem pairwise_jsInsert {α : Type} (keep : α → α → Bool)
    (htot : ∀ a b, keep a b = true ∨ keep b a = true)
    (htrans : ∀ a b c, keep a b = true → keep b c = true → keep a c = true)
    (x : α) (l : List α) (hl : l.Pairwise (fun a b => keep a b = true)) :
    (jsInsert keep x l).Pairwise (fun a b => keep a b = true) := by
  induction l with
  | nil => simp [jsInsert]
  | cons y ys ih =>
    rcases List.pairwise_cons.mp hl with ⟨hy, hys⟩
    simp only [jsInsert]
    split
    · rename_i hxy
      refine List.pairwise_cons.mpr ⟨?_, hl⟩
      intro z hz
      rcases List.mem_cons.mp hz with hzy | hzys
      · exact hzy ▸ hxy
      · exact htrans x y z hxy (hy z hzys)
    · rename_i hxy
      refine List.pairwise_cons.mpr ⟨?_, ih hys⟩
      intro z hz
      rcases (mem_jsInsert keep x z ys).mp hz with hzx | hzys
      · rw [hzx]
        rcases htot x y with h1 | h1
        · exact absurd h1 hxy
        · exact h1
      · exact hy z hzys

theorem pairwise_jsSortStable {α : Type} (keep : α → α → Bool)
    (htot : ∀ a b, keep a b = true ∨ keep b a = true)
    (htrans : ∀ a b c, keep a b = true → keep b c = true → keep a c = true)
    (l : List α) :
    (jsSortStable keep l).Pairwise (fun a b => keep a b = true) := by
  induction l with
  | nil => simp [jsSortStable]
  | cons x xs ih => exact pairwise_jsInsert keep htot htrans x _ ih

/-! ## Helper lemmas: the upsert loop and `pushRecords` -/

theorem length_upsertOne_of_mem (recs : List DataRecord) (r : DataRecord)
    (h : r.id ∈ recs.map DataRecord.id) :
    (upsertOne recs r).length = recs.length := by
  induction recs with
  | nil => simp at h
  | cons x xs ih =>
    simp only [upsertOne]
    split
    · simp
    · rename_i hne
      have : r.id ∈ xs.map DataRecord.id := by
        rcases List.mem_map.mp h with ⟨y, hy, hyid⟩
        rcases List.mem_cons.mp hy with hyx | hyxs
        · subst hyx
          exact absurd hyid hne
        · exact List.mem_map.mpr ⟨y, hyxs, hyid⟩
      simp [ih this]

theorem mem_upsertOne (recs : List DataRecord) (r x : DataRecord)
    (h : x ∈ upsertOne recs r) : x = r ∨ x ∈ recs := by
  induction recs with
  | nil => simpa [upsertOne] using h
  | cons y ys ih =>
    simp only [upsertOne] at h
    split at h
    · rcases List.mem_cons.mp h with h1 | h1
      · exact Or.inl h1
      · exact Or.inr (by simp [h1])
    · rcases List.mem_cons.mp h with h1 | h1
      · exact Or.inr (by simp [h1])
      · rcases ih h1 with h2 | h2
        · exact Or.inl h2
        · exact Or.inr (by simp [h2])

theorem upsertOne_id_unique (recs : List DataRecord) (r : DataRecord)
    (hnd : (recs.map DataRecord.id).Nodup)
    (hid : r.id ∈ recs.map DataRecord.id) :
    ∀ x ∈ upsertOne recs r, x.id = r.id → x = r := by
  induction recs with
  | nil => simp at hid
  | cons y ys ih =>
    rcases List.pairwise_cons.mp hnd with ⟨hy, hys⟩
    intro x hx hxid
    simp only [upsertOne] at hx
    split at hx
    · rename_i hyr
      rcases List.mem_cons.mp hx with h1 | h1
      · exact h1
      · exfalso
        have hb : x.id ∈ ys.map DataRecord.id := List.mem_map.mpr ⟨x, h1, rfl⟩
        exact hy x.id hb (hyr.trans hxid.symm)
    · rename_i hyr
      rcases List.mem_cons.mp hx with h1 | h1
      · exact absurd (h1 ▸ hxid) hyr
      · have hid2 : r.id ∈ ys.map DataRecord.id := by
          rcases List.mem_map.mp hid with ⟨z, hz, hzid⟩
          rcases List.mem_cons.mp hz with hzy | hzys
          · exact absurd (hzy ▸ hzid) hyr
          · exact List.mem_map.mpr ⟨z, hzys, hzid⟩
        exact ih hys hid2 x h1 hxid

theorem length_capRecords_le (dt : String → Option Int) (merged : List DataRecord) :
    (capRecords dt merged).length ≤ merged.length := by
  unfold capRecords
  simp only [length_jsSortStable]
  split
  · rw [List.length_take, length_jsSortStable]
    exact Nat.min_le_right _ _
  · simp [length_jsSortStable]

theorem mem_of_mem_capRecords (dt : String → Option Int) (merged : List DataRecord)
    (x : DataRecord) (h : x ∈ capRecords dt merged) : x ∈ merged := by
  unfold capRecords at h
  rw [mem_jsSortStable] at h
  rw [← mem_jsSortStable (keepRecency dt) x merged]
  split at h
  · exact List.mem_of_mem_take h
  · exact h

/-! ## Helper lemmas: the retry recursion -/

theorem runRetryAuxA_congr (atts atts2 : Nat → Att) (fb : Option Nat) :
    ∀ fuel rc, (∀ i, rc ≤ i → atts i = atts2 i) →
      runRetryAuxA atts fb fuel rc = runRetryAuxA atts2 fb fuel rc := by
  intro fuel
  induction fuel with
  | zero =>
    intro rc h
    simp only [runRetryAuxA, h rc le_rfl]
  | succ fuel ih =>
    intro rc h
    simp only [runRetryAuxA, h rc le_rfl]
    split
    · rfl
    · split
      · rw [ih (rc + 1) (fun i hi => h i (by omega))]
      · rfl

theorem fallbackResA_pos (fb : Option Nat) (n : Nat)
    (h : (fallbackResA fb).outcome = RunOutcomeA.primarySuccess n
      ∨ (fallbackResA fb).outcome = RunOutcomeA.fallbackSuccess n) :
    1 ≤ n := by
  rcases fb with _ | m
  · simp [fallbackResA] at h
  · by_cases hm : 0 < m
    · have hout : (fallbackResA (some m)).outcome = RunOutcomeA.fallbackSuccess m := by
        simp [fallbackResA, hm]
      rw [hout] at h
      rcases h with h1 | h1
      · cases h1
      · cases h1
        exact hm
    · have hout : (fallbackResA (some m)).outcome = RunOutcomeA.noData := by
        simp [fallbackResA, hm]
      rw [hout] at h
      rcases h with h1 | h1 <;> cases h1

theorem runRetryAuxA_pos (atts : Nat → Att) (fb : Option Nat) :
    ∀ fuel rc n,
      ((runRetryAuxA atts fb fuel rc).outcome = RunOutcomeA.primarySuccess n
        ∨ (runRetryAuxA atts fb fuel rc).outcome = RunOutcomeA.fallbackSuccess n) →
      1 ≤ n := by
  intro fuel
  induction fuel with
  | zero =>
    intro rc n hn
    simp only [runRetryAuxA] at hn
    split at hn
    · rename_i hsucc
      rcases hn with h1 | h1
      · cases h1
        exact hsucc.2
      · cases h1
    · split at hn
      · rcases hn with h1 | h1 <;> cases h1
      · exact fallbackResA_pos fb n hn
  | succ fuel ih =>
    intro rc n hn
    simp only [runRetryAuxA] at hn
    split at hn
    · rename_i hsucc
      rcases hn with h1 | h1
      · cases h1
        exact hsucc.2
      · cases h1
    · split at hn
      · exact ih (rc + 1) n hn
      · exact fallbackResA_pos fb n hn

theorem runRetryAuxA_noData (atts : Nat → Att) (hz : ∀ i, (atts i).stored = 0) :
    ∀ fuel rc, MAX_RETRIES < rc + fuel →
      (runRetryAuxA atts (some 0) fuel rc).outcome = RunOutcomeA.noData ∧
      (runRetryAuxA atts (some 0) fuel rc).postSleep = NO_DATA_BACKOFF_MS := by
  intro fuel
  induction fuel with
  | zero =>
    intro rc hfuel
    have hrc : ¬ rc < MAX_RETRIES := by omega
    simp only [runRetryAuxA, hz rc]
    simp [hrc, fallbackResA]
  | succ fuel ih =>
    intro rc hfuel
    simp only [runRetryAuxA, hz rc]
    by_cases hrc : rc < MAX_RETRIES
    · have := ih (rc + 1) (by omega)
      simp [hrc, this.1, this.2]
    · simp [hrc, fallbackResA]

/-! ## Helper lemmas: the `crawler-factory.ts` timeline -/

theorem runTLAux_sleeps_not_cancellable (inp : C3In) :
    ∀ fuel rc t, ∀ ev ∈ (runTLAux inp fuel rc t).sleeps, ev.cancellable = false := by
  intro fuel
  induction fuel with
  | zero =>
    intro rc t ev hev
    simp only [runTLAux] at hev
    split at hev
    · simp at hev
    · split at hev
      · simp at hev
      · simp at hev
  | succ fuel ih =>
    intro rc t ev hev
    simp only [runTLAux] at hev
    split at hev
    · simp at hev
    · split at hev
      · rcases List.mem_cons.mp hev with h1 | h1
        · rw [h1]
        · exact ih (rc + 1) _ ev h1
      · simp at hev

/-! ## Helper lemmas: the adaptive revision -/

theorem runAdapt_pref_stays (st : AdaptState) (inp : AdaptIn)
    (h : st.preferBrowserless = true) :
    (runAdapt st inp).usedPrimary = false ∧ (runAdapt st inp).state = st := by
  simp [runAdapt, h]

theorem runAdaptSeq_pref_stays (inps : List AdaptIn) :
    ∀ st : AdaptState, st.preferBrowserless = true →
      ∀ r ∈ runAdaptSeq st inps, r.usedPrimary = false ∧ r.state.preferBrowserless = true := by
  induction inps with
  | nil =>
    intro st hst r hr
    simp [runAdaptSeq] at hr
  | cons i is ih =>
    intro st hst r hr
    rcases List.mem_cons.mp hr with h1 | h1
    · rcases runAdapt_pref_stays st i hst with ⟨hu, hs⟩
      rw [h1]
      exact ⟨hu, by rw [hs]; exact hst⟩
    · rcases runAdapt_pref_stays st i hst with ⟨hu, hs⟩
      exact ih (runAdapt st i).state (by rw [hs]; exact hst) r h1

/-! ## Helper lemmas: the scheduler's slot counter -/

theorem pqGo_active_le (q : List String) :
    ∀ s : SysState, s.activeCrawlers ≤ MAX_CONCURRENT_CRAWLERS →
      (pqGo q s).activeCrawlers ≤ MAX_CONCURRENT_CRAWLERS := by
  induction q with
  | nil =>
    intro s h
    simpa [pqGo] using h
  | cons k rest ih =>
    intro s h
    simp only [pqGo]
    split
    · rename_i hlt
      split
      · exact ih _ (by simp [startCrawlerSlot]; omega)
      · exact ih _ h
    · simpa using h

theorem processQueue_active_le (s : SysState)
    (h : s.activeCrawlers ≤ MAX_CONCURRENT_CRAWLERS) :
    (processQueue s).activeCrawlers ≤ MAX_CONCURRENT_CRAWLERS := by
  unfold processQueue
  split
  · exact pqGo_active_le _ _ h
  · exact h

theorem releaseSlot_active_le (s : SysState)
    (h : s.activeCrawlers ≤ MAX_CONCURRENT_CRAWLERS) :
    (releaseSlot s).activeCrawlers ≤ MAX_CONCURRENT_CRAWLERS := by
  unfold releaseSlot
  split
  · exact processQueue_active_le _ (by simp; omega)
  · exact h

theorem sysStep_active_le {s t : SysState} (hst : SysStep s t)
    (h : s.activeCrawlers ≤ MAX_CONCURRENT_CRAWLERS) :
    t.activeCrawlers ≤ MAX_CONCURRENT_CRAWLERS := by
  cases hst with
  | finish k hk => exact releaseSlot_active_le _ (by simpa using h)
  | wake k hk => simpa using h

theorem runRetryAuxA_success (atts : Nat → Att) (fb : Option Nat) (fuel rc : Nat)
    (h1 : (atts rc).threw = false) (h2 : 0 < (atts rc).stored) :
    runRetryAuxA atts fb fuel rc
      = { outcome := RunOutcomeA.primarySuccess ((atts rc).stored)
          backoffs := [], postSleep := 0 } := by
  cases fuel <;>
  · simp only [runRetryAuxA]
    simp [h1, h2]

theorem runRetryAuxA_zero_as_error (atts : Nat → Att) (fb : Option Nat) (fuel rc : Nat)
    (_h1 : (atts rc).threw = false) (h2 : (atts rc).stored = 0) :
    runRetryAuxA atts fb fuel rc
      = runRetryAuxA (fun i => if i = rc then { threw := true, stored := 0 } else atts i)
          fb fuel rc := by
  have hupd : ∀ i, rc + 1 ≤ i →
      atts i = (fun i => if i = rc then ({ threw := true, stored := 0 } : Att) else atts i) i := by
    intro i hi
    have hne : i ≠ rc := by omega
    simp [hne]
  cases fuel with
  | zero =>
    simp only [runRetryAuxA]
    simp [h2]
  | succ fuel =>
    simp only [runRetryAuxA]
    by_cases hrc : rc < MAX_RETRIES
    · simp [h2, hrc, runRetryAuxA_congr atts _ fb fuel (rc + 1) (fun i hi => hupd i hi)]
    · simp [h2, hrc]

/-- C1: a crawl-cycle run is successful only if the extraction completed
without error and persisted at least one record; a run that completes
without an exception but stores zero records takes exactly the same
retry-then-fallback path (same outcome, same backoff sleeps, same
post-run sleep) as a run whose attempt threw, and every successful
outcome — primary or fallback — carries at least one persisted record. -/
theorem c1_success_criterion (atts : Nat → Att) (fb : Option Nat) (rc : Nat) :
    ((atts rc).threw = false → 0 < (atts rc).stored →
      runWithRetryA atts fb rc
        = { outcome := RunOutcomeA.primarySuccess ((atts rc).stored)
            backoffs := [], postSleep := 0 }) ∧
    ((atts rc).threw = false → (atts rc).stored = 0 →
      runWithRetryA atts fb rc
        = runWithRetryA (fun i => if i = rc then { threw := true, stored := 0 } else atts i)
            fb rc) ∧
    (∀ n, ((runWithRetryA atts fb rc).outcome = RunOutcomeA.primarySuccess n
        ∨ (runWithRetryA atts fb rc).outcome = RunOutcomeA.fallbackSuccess n) → 1 ≤ n) :=
  ⟨fun h1 h2 => runRetryAuxA_success atts fb _ rc h1 h2,
   fun h1 h2 => runRetryAuxA_zero_as_error atts fb _ rc h1 h2,
   fun n hn => runRetryAuxA_pos atts fb _ rc n hn⟩

/-- C1 witness: a clean first attempt with 2 records succeeds immediately;
a clean zero-record first attempt behaves exactly like a thrown one. -/
theorem c1_success_criterion_witness :
    runWithRetryA (fun _ => { threw := false, stored := 2 }) none 0
      = { outcome := RunOutcomeA.primarySuccess 2, backoffs := [], postSleep := 0 } ∧
    runWithRetryA (fun _ => { threw := false, stored := 0 }) (some 3) 0
      = runWithRetryA
          (fun i => if i = 0 then { threw := true, stored := 0 }
                    else { threw := false, stored := 0 }) (some 3) 0 :=
  ⟨(c1_success_criterion (fun _ => { threw := false, stored := 2 }) none 0).1 rfl (by decide),
   (c1_success_criterion (fun _ => { threw := false, stored := 0 }) (some 3) 0).2.1 rfl rfl⟩

/-- C2 counterexample: with every Playwright attempt and the Browserless
fallback yielding zero records, the run ends in the no-data outcome, yet
the sleep before the next run is `NO_DATA_BACKOFF_MS` **plus** the poll
interval (330000 ms with the defaults), not `NO_DATA_BACKOFF_MS`: the
cooldown is applied in addition to, not instead of, the poll interval. -/
theorem c2_cooldown_cx :
    (runWithRetryA (fun _ => { threw := true, stored := 0 }) (some 0) 0).outcome
      = RunOutcomeA.noData ∧
    interRunGapA (fun _ => { threw := true, stored := 0 }) (some 0) 30000
      = NO_DATA_BACKOFF_MS + 30000 ∧
    interRunGapA (fun _ => { threw := true, stored := 0 }) (some 0) 30000
      ≠ NO_DATA_BACKOFF_MS :=
  ⟨by decide, by decide, by decide⟩

/-- C2 as amended: whenever the primary backend (through all its retries)
and the fallback both persist zero records, the run ends in the no-data
outcome and the sleep before the source's next run is `NO_DATA_BACKOFF_MS`
plus the normal poll interval — the cooldown is additional, because the
`start` loop performs its poll-interval sleep unconditionally after
`runWithRetry` returns. -/
theorem c2_cooldown_amended (atts : Nat → Att) (pollIntervalMs : Nat)
    (hz : ∀ i, (atts i).stored = 0) :
    (runWithRetryA atts (some 0) 0).outcome = RunOutcomeA.noData ∧
    (runWithRetryA atts (some 0) 0).postSleep = NO_DATA_BACKOFF_MS ∧
    interRunGapA atts (some 0) pollIntervalMs
      = NO_DATA_BACKOFF_MS + pollEff pollIntervalMs := by
  have h := runRetryAuxA_noData atts hz (MAX_RETRIES + 1 - 0) 0 (by simp [MAX_RETRIES])
  refine ⟨h.1, h.2, ?_⟩
  unfold interRunGapA
  rw [show runWithRetryA atts (some 0) 0
        = runRetryAuxA atts (some 0) (MAX_RETRIES + 1 - 0) 0 from rfl, h.2]

/-- C2 amended witness at a concrete environment. -/
theorem c2_cooldown_amended_witness :
    interRunGapA (fun _ => { threw := true, stored := 0 }) (some 0) 0
      = NO_DATA_BACKOFF_MS + pollEff 0 :=
  (c2_cooldown_amended (fun _ => { threw := true, stored := 0 }) 0 (fun _ => rfl)).2.2

/-- C3 counterexample: in `src/lib/crawler-factory.ts`, a stop signal
delivered at t = 2000 ms — inside the first retry backoff sleep
(window [1000, 6000)) — neither shortens that sleep nor prevents the
remaining retry and fallback attempts from starting. -/
theorem c3_stop_cancel_cx : ¬ stopCancelsSleeps c3Demo 2000 := by decide

/-- C3 as amended: a stop signal delivered strictly inside the inter-cycle
poll sleep resolves it immediately (at the stop time) and no further cycle
starts; a stop at or before the poll sleep's actual end likewise prevents
the next cycle; but the retry backoff sleeps carry no abort handler
(none is cancellable) and the run phase — its attempts, its fallback
invocation and its backoff sleeps — is entirely independent of when the
stop signal arrives, so a stop during a retry backoff sleep lets the sleep
run out and the remaining attempts still start. -/
theorem c3_stop_cancel_amended (inp : C3In) (stop : Nat) :
    ((cycleTL inp stop).pollStart ≤ stop →
      stop < (cycleTL inp stop).pollStart + (cycleTL inp stop).pollDur →
      (cycleTL inp stop).pollActualEnd = stop ∧
        (cycleTL inp stop).nextRunStarts = false) ∧
    (stop ≤ (cycleTL inp stop).pollActualEnd →
      (cycleTL inp stop).nextRunStarts = false) ∧
    (∀ ev ∈ (cycleTL inp stop).sleeps, ev.cancellable = false) ∧
    ((cycleTL inp stop).attStarts = (runTL inp).attStarts ∧
      (cycleTL inp stop).sleeps = (runTL inp).sleeps) := by
  refine ⟨?_, ?_, ?_, rfl, rfl⟩
  · intro h1 h2
    unfold cycleTL at h1 h2 ⊢
    simp only at h1 h2 ⊢
    rw [if_pos ⟨h1, h2⟩]
    refine ⟨rfl, ?_⟩
    simp
  · intro h1
    unfold cycleTL at h1 ⊢
    simp only at h1 ⊢
    simp only [decide_eq_false_iff_not]
    omega
  · intro ev hev
    unfold cycleTL at hev
    simp only at hev
    exact runTLAux_sleeps_not_cancellable inp (MAX_RETRIES + 1) 0 0 ev hev

/-- C3 amended witness: a stop at t = 40050 ms, inside the poll sleep
window [40000, 70000) of the demo cycle, ends the poll sleep at 40050 and
no next cycle starts. -/
theorem c3_stop_cancel_amended_witness :
    (cycleTL c3Demo 40050).pollActualEnd = 40050 ∧
    (cycleTL c3Demo 40050).nextRunStarts = false :=
  (c3_stop_cancel_amended c3Demo 40050).1 (by decide) (by decide)

/-- C4 counterexample: from the started demo system (three sources, two
slots), two autonomous crawler steps — source `cat-r1` reports `sleeping`
(releasing its slot, which admits `cat-r3`), then `cat-r1`'s own poll
sleep elapses and it re-enters scraping — reach a state with three
sources scraping simultaneously, exceeding `MAX_CONCURRENT_CRAWLERS = 2`. -/
theorem c4_concurrency_cx :
    ¬ (∀ s, SysReaches sA s → countScraping s ≤ MAX_CONCURRENT_CRAWLERS) := by
  intro h
  have hreach : SysReaches sA sC :=
    Relation.ReflTransGen.tail
      (Relation.ReflTransGen.tail Relation.ReflTransGen.refl
        (SysStep.finish sA "cat-r1" (by decide)))
      (SysStep.wake sB "cat-r1" (by decide))
  have hc := h sC hreach
  revert hc
  decide

/-- C4 as amended: the scheduler's slot counter `activeCrawlers` never
exceeds `MAX_CONCURRENT_CRAWLERS` in any reachable state — the queue
admits at most that many crawler loops at a time, and `startAll` preserves
the bound — but the bound governs admissions only: as the counterexample
shows, a source that released its slot on `sleeping` re-enters active
scraping on its own timer without re-acquiring a slot, so the number of
simultaneously scraping sources is not bounded by it. -/
theorem c4_concurrency_amended (s0 s : SysState) (srcs : List (String × List String))
    (h0 : s0.activeCrawlers ≤ MAX_CONCURRENT_CRAWLERS) (hr : SysReaches s0 s) :
    s.activeCrawlers ≤ MAX_CONCURRENT_CRAWLERS ∧
    (startAllSys srcs s0).activeCrawlers ≤ MAX_CONCURRENT_CRAWLERS := by
  constructor
  · induction hr with
    | refl => exact h0
    | tail hab hbc ih => exact sysStep_active_le hbc ih
  · unfold startAllSys
    split
    · exact h0
    · exact processQueue_active_le _ (by simpa using h0)

/-- C4 amended witness: the initial state and a `startAll` from it both
respect the slot bound. -/
theorem c4_concurrency_amended_witness :
    sysInit.activeCrawlers ≤ MAX_CONCURRENT_CRAWLERS ∧
    (startAllSys demoSources sysInit).activeCrawlers ≤ MAX_CONCURRENT_CRAWLERS :=
  c4_concurrency_amended sysInit sysInit demoSources (by decide)
    Relation.ReflTransGen.refl

/-- C5: after any single `push` — from any prior store state, with any
number of pushed records — the stored record count is at most
`MAX_RECORDS` (99); since this holds for every prior state, it holds
after every push of every finite sequence of pushes. -/
theorem c5_capacity (dt : String → Option Int) (recs : List DataRecord)
    (items : List PushItem) :
    (pushRecords dt recs items).length ≤ MAX_RECORDS := by
  unfold pushRecords capRecords
  simp only [length_jsSortStable]
  split
  · rw [List.length_take]
    exact Nat.min_le_left _ _
  · rename_i hle
    rw [length_jsSortStable]
    omega

/-- C6: pushing a record whose computed identifier already exists in the
store (whose ids are distinct) replaces the existing record wholesale —
every record in the result carrying that id is exactly the pushed record,
with none of the old record's fields surviving — and the total record
count does not increase. -/
theorem c6_upsert_in_place (dt : String → Option Int) (recs : List DataRecord)
    (it : PushItem)
    (hnd : (recs.map DataRecord.id).Nodup)
    (hid : storeId it.name it.region ∈ recs.map DataRecord.id) :
    (pushRecords dt recs [it]).length ≤ recs.length ∧
    ∀ x ∈ pushRecords dt recs [it],
      x.id = storeId it.name it.region → x = mkPushRecord it := by
  have hup : upsertAll recs [it] = upsertOne recs (mkPushRecord it) := by
    simp [upsertAll]
  have hidm : (mkPushRecord it).id = storeId it.name it.region := rfl
  constructor
  · have h1 := length_capRecords_le dt (upsertAll recs [it])
    rw [hup, length_upsertOne_of_mem recs (mkPushRecord it) (hidm ▸ hid)] at h1
    exact h1
  · intro x hx hxid
    have hxm : x ∈ upsertOne recs (mkPushRecord it) := by
      rw [← hup]
      exact mem_of_mem_capRecords dt _ x hx
    exact upsertOne_id_unique recs (mkPushRecord it) hnd (hidm ▸ hid) x hxm
      (hxid.trans hidm.symm)

/-- C6 witness: pushing an item with the colliding id `a-r` into a
one-record store with that id. -/
theorem c6_upsert_in_place_witness :
    (pushRecords dtEx [c6Rec] [c6Item]).length ≤ [c6Rec].length ∧
    ∀ x ∈ pushRecords dtEx [c6Rec] [c6Item],
      x.id = storeId c6Item.name c6Item.region → x = mkPushRecord c6Item :=
  c6_upsert_in_place dtEx [c6Rec] c6Item (by decide) (by decide)

/-- C7 counterexample: in a full store whose first record `recU` has a
present but unparseable `scrapedAt` (`"x"`, parsing to `NaN`), pushing a
record with the oldest valid timestamp (5 ms) evicts that valid record and
keeps `recU` — although the claim's reading assigns `recU` epoch
timestamp 0 and demands it be evicted before any valid-timestamp record:
the `NaN` comparator result makes the sort keep `recU` in place instead of
treating it as oldest. -/
theorem c7_eviction_cx : ¬ evictsOldestFirst dtEx := by
  intro h
  have h5 := h c7Recs [c7Item] (mkPushRecord c7Item) (by decide) (by decide)
    recU (by decide)
  revert h5
  decide

theorem capRecords_oldest_evicted (dt : String → Option Int) (l : List DataRecord)
    (hall : ∀ r ∈ l, (jsGetTime dt r.scrapedAt).isSome = true) :
    (MAX_RECORDS < l.length → (capRecords dt l).length = MAX_RECORDS) ∧
    (∀ e ∈ l, e ∉ capRecords dt l →
      ∀ k ∈ capRecords dt l, claimTime dt e ≤ claimTime dt k) := by
  have hagree : ∀ a ∈ l, ∀ b ∈ l,
      keepRecency dt a b = decide (claimTime dt b ≤ claimTime dt a) := by
    intro a ha b hb
    rcases Option.isSome_iff_exists.mp (hall a ha) with ⟨ta, hta⟩
    rcases Option.isSome_iff_exists.mp (hall b hb) with ⟨tb, htb⟩
    simp [keepRecency, claimTime, hta, htb]
  have hsorteq : jsSortStable (keepRecency dt) l
      = jsSortStable (fun a b => decide (claimTime dt b ≤ claimTime dt a)) l :=
    jsSortStable_congrOn _ _ l hagree
  have hpw : (jsSortStable (fun a b => decide (claimTime dt b ≤ claimTime dt a)) l).Pairwise
      (fun a b => decide (claimTime dt b ≤ claimTime dt a) = true) :=
    pairwise_jsSortStable _
      (fun a b => by
        rcases le_total (claimTime dt b) (claimTime dt a) with h | h
        · exact Or.inl (by simpa using h)
        · exact Or.inr (by simpa using h))
      (fun a b c h1 h2 => by
        simp only [decide_eq_true_eq] at h1 h2 ⊢
        exact le_trans h2 h1)
      l
  constructor
  · intro hover
    unfold capRecords
    simp only [length_jsSortStable]
    rw [if_pos hover]
    rw [List.length_take, length_jsSortStable]
    omega
  · intro e he hne k hk
    unfold capRecords at hne hk
    rw [mem_jsSortStable] at hne hk
    rw [hsorteq] at hne hk
    have heS : e ∈ jsSortStable (fun a b => decide (claimTime dt b ≤ claimTime dt a)) l :=
      (mem_jsSortStable _ _ _).mpr he
    revert hne hk
    split
    · intro hne hk
      rw [← List.take_append_drop MAX_RECORDS
        (jsSortStable (fun a b => decide (claimTime dt b ≤ claimTime dt a)) l)] at hpw heS
      rcases List.mem_append.mp heS with hin | hin
      · exact absurd hin hne
      · have := (List.pairwise_append.mp hpw).2.2 k hk e hin
        simpa using this
    · intro hne hk
      exact absurd heS hne

/-- C7 as amended: eviction keeps exactly `MAX_RECORDS` records when a
push exceeds capacity, and — for stores whose present timestamps all
parse — every evicted record's capture timestamp (missing `scrapedAt`
counting as epoch 0) is at most every kept record's: eviction is
oldest-first by parsed timestamp, with missing timestamps oldest.  A
record with a present but *unparseable* timestamp, however, compares as
`NaN`-equal to everything and keeps its relative position in the stable
sort (see the counterexample), so the claim's "unparseable is treated as
epoch 0 and evicted first" does not hold. -/
theorem c7_eviction_amended (dt : String → Option Int) (recs : List DataRecord)
    (items : List PushItem)
    (hall : ∀ r ∈ upsertAll recs items, (jsGetTime dt r.scrapedAt).isSome = true) :
    (MAX_RECORDS < (upsertAll recs items).length →
      (pushRecords dt recs items).length = MAX_RECORDS) ∧
    (∀ e, e ∈ upsertAll recs items → e ∉ pushRecords dt recs items →
      ∀ k ∈ pushRecords dt recs items, claimTime dt e ≤ claimTime dt k) := by
  have h := capRecords_oldest_evicted dt (upsertAll recs items) hall
  exact ⟨h.1, fun e he hne k hk => h.2 e he hne k hk⟩

/-- C7 amended witness: a full store of valid timestamps plus the oldest
pushed record: the store stays at 99 records and the evicted record (the
pushed one, timestamp 5) is no newer than the kept newest record. -/
theorem c7_eviction_amended_witness :
    (pushRecords dtEx c7RecsW [c7Item]).length = MAX_RECORDS ∧
    claimTime dtEx (mkPushRecord c7Item) ≤ claimTime dtEx (vRec 0) := by
  have h := c7_eviction_amended dtEx c7RecsW [c7Item] (by decide)
  exact ⟨h.1 (by decide),
    h.2 (mkPushRecord c7Item) (by decide) (by decide) (vRec 0) (by decide)⟩

/-- C8: once Browserless is the preferred method, a run never invokes the
primary backend and leaves the adaptive state unchanged — so the
preference never reverts over any sequence of subsequent runs; a primary
failure increments the consecutive-failure counter even when the fallback
rescues the run (a successful fallback never resets it), and the moment
the incremented counter reaches `FAILURE_THRESHOLD` (2), the preference
switches to Browserless. -/
theorem c8_adaptive_switch (st : AdaptState) (inp : AdaptIn) (inps : List AdaptIn) :
    (st.preferBrowserless = true →
      (runAdapt st inp).usedPrimary = false ∧ (runAdapt st inp).state = st) ∧
    (st.preferBrowserless = false → pwFailed inp →
      (runAdapt st inp).state.fails = st.fails + 1 ∧
      (FAILURE_THRESHOLD ≤ st.fails + 1 →
        (runAdapt st inp).state.preferBrowserless = true)) ∧
    (st.preferBrowserless = true →
      ∀ r ∈ runAdaptSeq st inps, r.usedPrimary = false ∧ r.state.preferBrowserless = true) := by
  refine ⟨fun h => runAdapt_pref_stays st inp h, ?_, fun h => runAdaptSeq_pref_stays inps st h⟩
  intro hpf hfail
  have hnot : ¬ (inp.pw.threw = false ∧ 0 < inp.pw.stored) := by
    rcases hfail with h1 | h1
    · intro hc
      rw [hc.1] at h1
      cases h1
    · intro hc
      omega
  constructor
  · simp [runAdapt, hpf, hnot]
  · intro hth
    simp [runAdapt, hpf, hnot, hth]

/-- C8 witness: with Browserless preferred the primary is skipped; a
second consecutive primary failure (counter 1 → 2) flips the preference
even though the fallback succeeded. -/
theorem c8_adaptive_switch_witness :
    (runAdapt { fails := 2, preferBrowserless := true }
        { pw := { threw := true, stored := 0 }, bl := true }).usedPrimary = false ∧
    (runAdapt { fails := 1, preferBrowserless := false }
        { pw := { threw := true, stored := 0 }, bl := true }).state.preferBrowserless = true := by
  constructor
  · exact ((c8_adaptive_switch { fails := 2, preferBrowserless := true }
      { pw := { threw := true, stored := 0 }, bl := true } []).1 rfl).1
  · exact ((c8_adaptive_switch { fails := 1, preferBrowserless := false }
      { pw := { threw := true, stored := 0 }, bl := true } []).2.1 rfl
        (Or.inl rfl)).2 (by decide)

/-- C9 counterexample: `generateRecordId` does not separate every pair of
distinct hrefs: `""` (falsy) and `"/"` (no nonempty path segment) both
fall back to the name-region id, yielding identical identifiers for
different hrefs with the same name and region. -/
theorem c9_id_distinct_cx :
    ¬ ∀ (md5hex8 : String → String) (name region : String) (h1 h2 : Option String),
        h1 ≠ h2 →
        generateRecordId md5hex8 name region h1 ≠ generateRecordId md5hex8 name region h2 := by
  intro h
  exact h (fun _ => "00000000") "Gold" "us" (some "") (some "/") (by decide) (by decide)

theorem append_right_ne (x y a b : String) (hne : a ≠ b) (hl : a.length = b.length) :
    x ++ a ≠ y ++ b := by
  intro h
  apply hne
  apply String.ext
  have hd := congrArg String.data h
  rw [String.data_append, String.data_append] at hd
  exact List.append_inj_right' hd hl

/-- C9 as amended: identifier generation is deterministic (the embedding
is a pure function of its inputs), and two hrefs that both carry a
nonempty final path segment and whose truncated md5 digests differ (the
digests having the hash's fixed 8-hex-character length) yield distinct
identifiers for the same name and region; hrefs with no nonempty path
segment collapse to the name-region fallback id regardless of the href. -/
theorem c9_id_distinct_amended (md5hex8 : String → String) (name region h1 h2 : String)
    (s1 s2 : String) (hs1 : hrefSlug h1 = some s1) (hs2 : hrefSlug h2 = some s2)
    (hm : md5hex8 h1 ≠ md5hex8 h2)
    (hlen : (md5hex8 h1).length = (md5hex8 h2).length) :
    (∀ href, generateRecordId md5hex8 name region href
        = generateRecordId md5hex8 name region href) ∧
    generateRecordId md5hex8 name region (some h1)
      ≠ generateRecordId md5hex8 name region (some h2) := by
  refine ⟨fun _ => rfl, ?_⟩
  simp only [generateRecordId, hs1, hs2]
  exact append_right_ne _ _ _ _ hm hlen

/-- C9 amended witness: hrefs `"a"` and `"b"` with differing digests give
distinct ids. -/
theorem c9_id_distinct_amended_witness :
    generateRecordId (fun s => if s = "a" then "00000000" else "11111111")
        "Gold" "us" (some "a")
      ≠ generateRecordId (fun s => if s = "a" then "00000000" else "11111111")
        "Gold" "us" (some "b") :=
  (c9_id_distinct_amended (fun s => if s = "a" then "00000000" else "11111111")
    "Gold" "us" "a" "b" "a" "b" (by decide) (by decide) (by decide) (by decide)).2

/-- C10: `startAll()` on a manager that is already running returns
immediately with the queue, slot counter, crawler map, per-source states
and running flag untouched, and `start()` on a crawler whose loop is
already running likewise returns leaving the crawler state unchanged and
entering no new loop. -/
theorem c10_start_noop (srcs : List (String × List String)) (m : SysState) (c : CrState)
    (hm : m.isRunning = true) (hc : c.isRunning = true) :
    startAllSys srcs m = m ∧ crStart c = (c, false) := by
  constructor
  · simp [startAllSys, hm]
  · simp [crStart, hc]

/-- C10 witness: a running manager state and a running crawler state are
left exactly as they were. -/
theorem c10_start_noop_witness :
    startAllSys demoSources
        { isRunning := true, jobQueue := ["k"], activeCrawlers := 1
          crawlers := ["k"], phases := [("k", Phase.scraping)] }
      = { isRunning := true, jobQueue := ["k"], activeCrawlers := 1
          crawlers := ["k"], phases := [("k", Phase.scraping)] } ∧
    crStart { isRunning := true, aborted := false }
      = ({ isRunning := true, aborted := false }, false) :=
  c10_start_noop demoSources _ _ rfl rfl

end PriceCrawl
